import Mathlib

/-!
Verification of `generate_codes.py` (unique code generator).

Shallow embedding conventions:
* Python strings are `List Char`; `None`-able string parameters are `Option (List Char)`.
* `random.choice(charset)` is modelled by an oracle `rand : Nat → Nat` giving the index
  stream of the chosen characters (taken modulo the charset length); the sampling loop
  carries an explicit position into that stream.
* The unbounded `while` loop of `__generate_codes` is given explicit fuel; running out of
  fuel yields `none` (the loop is still running — no result, no error).
* Python exceptions (`ValueError`) are `Except.error` with the message text.
* the capacity guard `count / combinations > 1` (Python float true division, line 163)
  is modelled by the exact integer characterization of the correctly rounded binary64
  comparison with `1.0`.
-/

/-- ASCII whitespace for Python `str.split()` / `str.strip()` / `int(str)`
(`Py_UNICODE_ISSPACE` restricted to ASCII): space, `\t`, `\n`, `\r`, `\x0b`, `\x0c`,
and the separator controls `\x1c`-`\x1f`. -/
def isPySpace (c : Char) : Bool :=
  c = ' ' || c = '\t' || c = '\n' || c = '\r' || c = '\x0b' || c = '\x0c' ||
    c = '\x1c' || c = '\x1d' || c = '\x1e' || c = '\x1f'

/-- Python `string.digits`. -/
def string_digits : List Char := "0123456789".data

/-- Python `string.ascii_lowercase`. -/
def ascii_lowercase : List Char := "abcdefghijklmnopqrstuvwxyz".data

/-- Python `string.ascii_uppercase`. -/
def ascii_uppercase : List Char := "ABCDEFGHIJKLMNOPQRSTUVWXYZ".data

/-- Python `string.ascii_letters` (lowercase then uppercase). -/
def ascii_letters : List Char := ascii_lowercase ++ ascii_uppercase

/-- Python `string.printable`: digits, letters, punctuation, whitespace. -/
def string_printable : List Char :=
  string_digits ++ ascii_lowercase ++ ascii_uppercase ++
    "!\"#$%&\x27()*+,-./:;<=>?@[\\]^_\x60\x7b|\x7d~ \t\n\r\x0b\x0c".data

/-- A Python value passed for `codes_count` / `codes_length`: the program passes either an
`int` or a `str` (argparse without `type=` yields `str`). -/
inductive PyVal where
  | pint (n : Int)
  | pstr (s : List Char)

/-- Underscore digit grouping: never two adjacent underscores. -/
def pyNoDoubleUnderscore (ds : List Char) : Bool :=
  (ds.zip ds.tail).all (fun p => !(p.1 = '_' && p.2 = '_'))

/-- A Python decimal-digit run with underscore grouping (`int("1_0") = 10`): nonempty,
starts and ends with a digit, every character a digit or `'_'`, never two adjacent
underscores; the value ignores the underscores. -/
def digitsVal (ds : List Char) : Option Nat :=
  if ds ≠ [] ∧ ds.head? ≠ some '_' ∧ ds.getLast? ≠ some '_' ∧
      ds.all (fun c => c.isDigit || c = '_') = true ∧ pyNoDoubleUnderscore ds = true then
    some ((ds.filter Char.isDigit).foldl (fun a c => a * 10 + (c.toNat - 48)) 0)
  else none

/-- Python `str.strip()` restricted to ASCII whitespace. -/
def pyStrip (s : List Char) : List Char :=
  ((s.dropWhile isPySpace).reverse.dropWhile isPySpace).reverse

/-- Python `int(str)` on ASCII strings: surrounding whitespace stripped, optional sign,
decimal digits with underscore grouping.  `none` models `ValueError`.  (CPython first
maps every Unicode decimal digit to the corresponding ASCII digit and every Unicode
whitespace character to `' '`, then parses the resulting ASCII string, so each accepted
non-ASCII input reduces to this fragment; theorems about `int()` are scoped to ASCII
arguments.) -/
def parseIntStr (s : List Char) : Option Int :=
  match pyStrip s with
  | '+' :: ds => (digitsVal ds).map (fun n => (n : Int))
  | '-' :: ds => (digitsVal ds).map (fun n => -(n : Int))
  | ds => (digitsVal ds).map (fun n => (n : Int))

/-- Python `int(x)` on the modelled value domain. -/
def pyInt : PyVal → Option Int
  | PyVal.pint n => some n
  | PyVal.pstr s => parseIntStr s

/-- `CodeGenerator.__init__`, lines 27-37: convert both arguments with `int(...)` (a
failure of either raises), then check each is at least 1. -/
def CodeGenerator_init (countArg lenArg : PyVal) : Except String (Int × Int) :=
  match pyInt countArg, pyInt lenArg with
  | some c, some l =>
    if c < 1 then Except.error "Codes_count and codes_length must be greater than 0."
    else if l < 1 then Except.error "Codes_count and codes_length must be greater than 0."
    else Except.ok (c, l)
  | _, _ => Except.error "Codes_count and codes_length must be integers."

/-- `CodeGenerator.RECOMMENDED_CHARS`, line 12. -/
def RECOMMENDED_CHARS : List Char := "2345679ACDEFGHJKLMNPRSTUVXYZ".data

/-- `build_character_set` lines 66-83: the `charset == "custom"` branch. -/
def custom_charset_check (custom_chars : Option (List Char)) : Except String (List Char) :=
  match custom_chars with
  | some cc =>
    if cc ≠ [] then
      if cc.length ≠ cc.dedup.length then
        Except.error "Custom character set contains duplicate characters."
      else if cc.filter (fun c => decide (c ∉ string_printable)) ≠ [] then
        Except.error "Invalid characters in custom character set."
      else Except.ok cc
    else Except.error "Custom character set is empty."
  | none => Except.error "Custom character set is empty."

/-- `build_character_set` lines 58-85: select the base charset by name.  `alphaSet` is the
set already selected by the case option.  (In the final `else` the source interpolates
`self.charset`, which is still `""` at that point, hence the literal message.) -/
def base_charset_core (charsetName : String) (alphaSet : List Char)
    (custom_chars : Option (List Char)) : Except String (List Char) :=
  if charsetName = "recommended" then Except.ok RECOMMENDED_CHARS
  else if charsetName = "numeric" then Except.ok string_digits
  else if charsetName = "alpha" then Except.ok alphaSet
  else if charsetName = "alphanumeric" then Except.ok (string_digits ++ alphaSet)
  else if charsetName = "custom" then custom_charset_check custom_chars
  else Except.error "Invalid charset: ."

/-- `build_character_set` lines 49-85: the case option is resolved first (lines 49-56);
an invalid case raises before the charset name is even looked at. -/
def base_charset (charsetName caseName : String) (custom_chars : Option (List Char)) :
    Except String (List Char) :=
  if caseName = "lower" then base_charset_core charsetName ascii_lowercase custom_chars
  else if caseName = "mixed" then base_charset_core charsetName ascii_letters custom_chars
  else if caseName = "upper" then base_charset_core charsetName ascii_uppercase custom_chars
  else Except.error ("Invalid case: " ++ caseName ++ ".")

/-- `build_character_set` lines 87-96: if `omit` is given, reject non-printable omit
characters, otherwise keep only the characters not listed in `omit`. -/
def apply_omit (cs : List Char) (omitChars : Option (List Char)) : Except String (List Char) :=
  match omitChars with
  | none => Except.ok cs
  | some om =>
    if om.filter (fun c => decide (c ∉ string_printable)) ≠ [] then
      Except.error "Invalid characters in omit character set."
    else Except.ok (cs.filter (fun c => decide (c ∉ om)))

/-- `build_character_set` lines 98-105: if `add` is given, reject non-printable add
characters, otherwise append them all (no deduplication). -/
def apply_add (cs : List Char) (addChars : Option (List Char)) : Except String (List Char) :=
  match addChars with
  | none => Except.ok cs
  | some ad =>
    if ad.filter (fun c => decide (c ∉ string_printable)) ≠ [] then
      Except.error "Invalid characters in add character set."
    else Except.ok (cs ++ ad)

/-- `CodeGenerator.build_character_set`, lines 48-108: base selection, omit, add, and the
final emptiness check. -/
def build_character_set (charsetName caseName : String)
    (omitChars addChars custom_chars : Option (List Char)) : Except String (List Char) :=
  match base_charset charsetName caseName custom_chars with
  | Except.error e => Except.error e
  | Except.ok b =>
    match apply_omit b omitChars with
    | Except.error e => Except.error e
    | Except.ok o =>
      match apply_add o addChars with
      | Except.error e => Except.error e
      | Except.ok a =>
        if a = [] then Except.error "Used character set is empty." else Except.ok a

/-- The capacity guard `self.__check_probability() > 1` of lines 134-136.
`__check_probability` (lines 160-164) computes `self.codes_count / combinations` with
Python float true division, i.e. the correctly rounded binary64 quotient.  That rounded
quotient exceeds `1.0` exactly when the true ratio exceeds `1 + 2^-53` (the midpoint
between `1.0` and the next double; the tie rounds to even, i.e. down to `1.0`), stated
here as the equivalent exact integer inequality.  Not modelled: a ratio beyond the
double range (~1.8e308) raises `OverflowError` at line 163 instead of returning, and an
empty charset would raise `ZeroDivisionError`; theorems assume a nonempty charset. -/
def check_probability_gt_one (cs : List Char) (codes_count codes_length : Nat) : Bool :=
  (2 ^ 53 + 1) * cs.length ^ codes_length < 2 ^ 53 * codes_count

/-- One candidate core drawn at stream position `pos`:
`"".join(random.choice(self.charset) for _ in range(self.codes_length))`, lines 145-147.
`random.choice` always returns a member of the (nonempty) charset; the oracle index is
reduced modulo the charset length. -/
def sampleCore (cs : List Char) (rand : Nat → Nat) (pos L : Nat) : List Char :=
  (List.range L).map (fun k => cs.getD (rand (pos + k) % cs.length) 'A')

/-- The `while codes_generated < self.codes_count` loop of `__generate_codes`,
lines 141-158, with explicit fuel.  The Python `set` is modelled as the list of its
members (membership is checked before every insertion, so the list stays duplicate-free);
a candidate already in `codes` is discarded (`continue`), otherwise it is inserted and the
counter advances.  `none` means the fuel ran out while the loop would still be running. -/
def genLoop (cs : List Char) (pre suf : Option (List Char)) (L codes_count : Nat)
    (rand : Nat → Nat) :
    Nat → Nat → List (List Char) → Nat → Option (List (List Char))
  | 0, _, codes, gen => if gen < codes_count then none else some codes
  | Nat.succ f, pos, codes, gen =>
    if gen < codes_count then
      if (pre.getD [] ++ sampleCore cs rand pos L ++ suf.getD []) ∈ codes then
        genLoop cs pre suf L codes_count rand f (pos + L) codes gen
      else
        genLoop cs pre suf L codes_count rand f (pos + L)
          ((pre.getD [] ++ sampleCore cs rand pos L ++ suf.getD []) :: codes) (gen + 1)
    else some codes

/-- `CodeGenerator.__generate_codes`, lines 133-158: the capacity check runs first and
raises before any sampling; otherwise the sampling loop runs starting from the empty
code set and a zero counter. -/
def generate_codes (cs : List Char) (pre suf : Option (List Char))
    (codes_count codes_length : Nat) (rand : Nat → Nat) (fuel : Nat) :
    Except String (Option (List (List Char))) :=
  if check_probability_gt_one cs codes_count codes_length then
    Except.error ("Cannot generate " ++ Nat.repr codes_count ++ " codes of length " ++
      Nat.repr codes_length ++ " from a character set of length " ++
      Nat.repr cs.length ++ ".")
  else Except.ok (genLoop cs pre suf codes_length codes_count rand fuel 0 [] 0)

/-- `CodeGenerator.build_file`, lines 110-131: default the extension to `.csv`, default
`maxlines` to the code count, and require `maxlines >= 1`.  The filename is modelled
already split into base and extension (`os.path.splitext`). -/
def build_file (codes_count : Nat) (fbase fext : List Char) (maxlines : Option Int) :
    Except String (List Char × List Char × Int) :=
  let ext := if fext = [] then ".csv".data else fext
  let m : Int := match maxlines with | none => (codes_count : Int) | some k => k
  if m < 1 then Except.error "Maxlines must be an integer greater than 0."
  else Except.ok (fbase, ext, m)

/-- Decimal rendering of a numeric filename suffix. -/
def natStr (n : Nat) : List Char := (Nat.repr n).data

/-- Python `str.split()` (no separator): split on runs of whitespace, dropping empty
pieces. -/
def pySplit (s : List Char) : List (List Char) :=
  (s.splitOnP isPySpace).filter (fun w => w ≠ [])

/-- The row written for one code, line 219: `csv_writer.writerow(code.split())` — the
fields of the row are the whitespace-split pieces of the code. -/
def rowOfCode (code : List Char) : List (List Char) := pySplit code

/-- `CodeGenerator.__save_codes`, lines 194-208, as a pure plan: which file names are
written and which codes go into each.  `num_files = (len(codes_list) - 1) // maxlines + 1`
uses Python floor division, i.e. `Int.fdiv`; file `i` receives the slice
`codes_list[i*maxlines : (i+1)*maxlines]`; with more than one file the name is
`<base>_<i+1><ext>`, otherwise `<base><ext>`. -/
def save_plan (fbase fext : List Char) (maxlines : Nat) (codes : List (List Char)) :
    List (List Char × List (List Char)) :=
  let numFiles : Nat := ((((codes.length : Int) - 1).fdiv (maxlines : Int)) + 1).toNat
  (List.range numFiles).map (fun i =>
    ((if 1 < numFiles then fbase ++ ('_' :: natStr (i + 1)) ++ fext else fbase ++ fext),
     (codes.drop (i * maxlines)).take maxlines))

/-- A filesystem side effect of `__save_codes`. -/
inductive FsEvent where
  | mkdir (dir : List Char)
  | fileWrite (path : List Char) (rows : List (List (List Char)))

/-- `CodeGenerator.__save_codes`, lines 190-219, as its trace of filesystem effects:
`os.makedirs` if the save directory does not exist, then one write per planned file, each
file holding one `writerow(code.split())` row per code of its slice. -/
def save_events (dirExists : Bool) (saveDir fbase fext : List Char) (maxlines : Nat)
    (codes : List (List Char)) : List FsEvent :=
  (if dirExists then [] else [FsEvent.mkdir saveDir]) ++
    (save_plan fbase fext maxlines codes).map
      (fun f => FsEvent.fileWrite (saveDir ++ '/' :: f.1) (f.2.map rowOfCode))

/-- The `main` pipeline (lines 279-288): `__init__`, `build_character_set`, `build_file`,
then `run` = `__generate_codes` followed by `__save_codes`.  A raised `ValueError`
propagates (caught in `main`), producing no filesystem effects; `Except.ok` carries the
effect trace.  `Except.ok []` is the still-running loop (fuel ran out before completion):
no file I/O has happened yet either. -/
def main_run (countArg lenArg : PyVal) (charsetName caseName : String)
    (omitChars addChars custom_chars pre suf : Option (List Char))
    (fbase fext : List Char) (maxlines : Option Int)
    (dirExists : Bool) (saveDir : List Char) (rand : Nat → Nat) (fuel : Nat) :
    Except String (List FsEvent) :=
  match CodeGenerator_init countArg lenArg with
  | Except.error e => Except.error e
  | Except.ok (c, l) =>
    match build_character_set charsetName caseName omitChars addChars custom_chars with
    | Except.error e => Except.error e
    | Except.ok cs =>
      match build_file c.toNat fbase fext maxlines with
      | Except.error e => Except.error e
      | Except.ok (b, x, m) =>
        match generate_codes cs pre suf c.toNat l.toNat rand fuel with
        | Except.error e => Except.error e
        | Except.ok none => Except.ok []
        | Except.ok (some s) =>
          Except.ok (save_events dirExists saveDir b x m.toNat s)

/-- The filesystem effects an outcome performed: a raised error performed none. -/
def fs_events : Except String (List FsEvent) → List FsEvent
  | Except.error _ => []
  | Except.ok evs => evs

instance instDecEqExcept {e a : Type _} [DecidableEq e] [DecidableEq a] :
    DecidableEq (Except e a) := fun x y =>
  match x, y with
  | Except.error u, Except.error v => decidable_of_iff (u = v) (by simp)
  | Except.ok u, Except.ok v => decidable_of_iff (u = v) (by simp)
  | Except.error _, Except.ok _ => Decidable.isFalse (fun hh => Except.noConfusion hh)
  | Except.ok _, Except.error _ => Decidable.isFalse (fun hh => Except.noConfusion hh)

/-! ## Helper lemmas -/

lemma build_of_base_error (charsetName caseName : String)
    (omitChars addChars custom_chars : Option (List Char)) (e : String)
    (h : base_charset charsetName caseName custom_chars = Except.error e) :
    build_character_set charsetName caseName omitChars addChars custom_chars =
      Except.error e := by
  unfold build_character_set
  rw [h]

lemma base_charset_split (charsetName caseName : String) (cust : Option (List Char)) :
    (∃ aset, base_charset charsetName caseName cust = base_charset_core charsetName aset cust) ∨
      base_charset charsetName caseName cust =
        Except.error ("Invalid case: " ++ caseName ++ ".") := by
  unfold base_charset
  split_ifs
  · exact Or.inl ⟨_, rfl⟩
  · exact Or.inl ⟨_, rfl⟩
  · exact Or.inl ⟨_, rfl⟩
  · exact Or.inr rfl

lemma base_charset_core_custom (aset : List Char) (cust : Option (List Char)) :
    base_charset_core "custom" aset cust = custom_charset_check cust := rfl

lemma dedup_length_eq_iff_nodup (cc : List Char) :
    cc.dedup.length = cc.length ↔ cc.Nodup := by
  constructor
  · intro h
    have heq := (List.dedup_sublist cc).eq_of_length h
    rw [← heq]
    exact List.nodup_dedup cc
  · intro h
    rw [List.dedup_eq_self.mpr h]

/-! ## C10 -/

/-- C10: `build_character_set` validates the case option before selecting the base
charset: for every case argument other than `"lower"`, `"mixed"`, `"upper"` it raises,
whatever the requested charset (including `"recommended"`, `"numeric"`, `"custom"`,
which do not depend on the case option). -/
theorem case_validated_before_charset (caseName : String)
    (h1 : caseName ≠ "lower") (h2 : caseName ≠ "mixed") (h3 : caseName ≠ "upper")
    (charsetName : String) (omitChars addChars custom_chars : Option (List Char)) :
    build_character_set charsetName caseName omitChars addChars custom_chars =
      Except.error ("Invalid case: " ++ caseName ++ ".") := by
  apply build_of_base_error
  unfold base_charset
  rw [if_neg h1, if_neg h2, if_neg h3]

theorem case_validated_before_charset_witness :
    build_character_set "numeric" "UPPER" none none none =
      Except.error ("Invalid case: " ++ "UPPER" ++ ".") :=
  case_validated_before_charset "UPPER" (by decide) (by decide) (by decide)
    "numeric" none none none

/-! ## C9 -/

lemma generate_codes_error_iff (cs : List Char) (pre suf : Option (List Char))
    (codes_count codes_length : Nat) (rand : Nat → Nat) (fuel : Nat) :
    (∃ e, generate_codes cs pre suf codes_count codes_length rand fuel = Except.error e) ↔
      (2 ^ 53 + 1) * cs.length ^ codes_length < 2 ^ 53 * codes_count := by
  unfold generate_codes
  split_ifs with h
  · exact iff_of_true ⟨_, rfl⟩ (by simpa [check_probability_gt_one] using h)
  · refine iff_of_false ?_ ?_
    · rintro ⟨e, he⟩
      simp at he
    · intro hlt
      exact h (by simpa [check_probability_gt_one] using hlt)

/-- C2 is false as stated: the capacity check compares the **binary64 float** of
`count / combinations` with 1 (line 163 is Python float true division), and the
correctly rounded quotient of `(10^20 + 1) / 10^20` is exactly `1.0`.  So with the
numeric charset (10 characters), length 20 and count `10^20 + 1`, the count exceeds
`|alphabet| ^ length` yet no capacity error is raised — the run proceeds straight into
the sampling loop. -/
theorem generate_codes_capacity_counterexample :
    ("0123456789".data).length ^ 20 < 10 ^ 20 + 1 ∧
    generate_codes "0123456789".data none none (10 ^ 20 + 1) 20 (fun _ => 0) 0 =
      Except.ok none := by
  constructor
  · decide
  · decide

/-- C2 (amended): generation raises the capacity error, before any sampling, exactly
when the correctly rounded binary64 value of `count / |alphabet| ^ length` exceeds 1,
i.e. when `count / |alphabet| ^ length > 1 + 2^-53`, stated as the integer inequality
`(2^53 + 1) * |alphabet| ^ length < 2^53 * count`.  Consequently (second conjunct) it
still never raises when `count ≤ |alphabet| ^ length` — equality is accepted — and
(third conjunct) it does raise whenever `count > |alphabet| ^ length`, provided
`|alphabet| ^ length < 2^53` so that no float rounding gap exists. -/
theorem generate_codes_capacity_float_iff (cs : List Char) (pre suf : Option (List Char))
    (codes_count codes_length : Nat) (rand : Nat → Nat) (fuel : Nat) (hcs : cs ≠ []) :
    ((∃ e, generate_codes cs pre suf codes_count codes_length rand fuel =
        Except.error e) ↔
      (2 ^ 53 + 1) * cs.length ^ codes_length < 2 ^ 53 * codes_count) ∧
    (codes_count ≤ cs.length ^ codes_length →
      ∀ e, generate_codes cs pre suf codes_count codes_length rand fuel ≠
        Except.error e) ∧
    (cs.length ^ codes_length < 2 ^ 53 → cs.length ^ codes_length < codes_count →
      ∃ e, generate_codes cs pre suf codes_count codes_length rand fuel =
        Except.error e) := by
  refine ⟨generate_codes_error_iff cs pre suf codes_count codes_length rand fuel, ?_, ?_⟩
  · intro hle e he
    have h1 := (generate_codes_error_iff cs pre suf codes_count codes_length
      rand fuel).mp ⟨e, he⟩
    have h2 : (2 : Nat) ^ 53 * codes_count ≤ (2 ^ 53 + 1) * cs.length ^ codes_length :=
      le_trans (Nat.mul_le_mul_left _ hle) (Nat.mul_le_mul_right _ (by omega))
    omega
  · intro hsmall hlt
    refine (generate_codes_error_iff cs pre suf codes_count codes_length
      rand fuel).mpr ?_
    calc (2 ^ 53 + 1) * cs.length ^ codes_length
        = 2 ^ 53 * cs.length ^ codes_length + cs.length ^ codes_length := by ring
      _ < 2 ^ 53 * cs.length ^ codes_length + 2 ^ 53 := by omega
      _ = 2 ^ 53 * (cs.length ^ codes_length + 1) := by ring
      _ ≤ 2 ^ 53 * codes_count := Nat.mul_le_mul_left _ (by omega)

theorem generate_codes_capacity_float_iff_witness :
    ((∃ e, generate_codes "ab".data none none 3 1 (fun _ => 0) 0 = Except.error e) ↔
      (2 ^ 53 + 1) * ("ab".data).length ^ 1 < 2 ^ 53 * 3) ∧
    (3 ≤ ("ab".data).length ^ 1 →
      ∀ e, generate_codes "ab".data none none 3 1 (fun _ => 0) 0 ≠ Except.error e) ∧
    (("ab".data).length ^ 1 < 2 ^ 53 → ("ab".data).length ^ 1 < 3 →
      ∃ e, generate_codes "ab".data none none 3 1 (fun _ => 0) 0 = Except.error e) :=
  generate_codes_capacity_float_iff "ab".data none none 3 1 (fun _ => 0) 0 (by decide)

/-! ## C6 -/

/-- C6: the builder fails (and produces no alphabet) whenever: the charset is `"custom"`
with an empty or unspecified custom string; the custom string has a repeated character;
a custom, omit, or add character is non-printable; or the alphabet left after omit then
add is empty. -/
theorem build_character_set_failure_conditions
    (charsetName caseName : String) (omitChars addChars custom_chars : Option (List Char))
    (h :
      (charsetName = "custom" ∧ (custom_chars = none ∨ custom_chars = some [])) ∨
      (charsetName = "custom" ∧ ∃ cc, custom_chars = some cc ∧ ¬ cc.Nodup) ∨
      (charsetName = "custom" ∧
        ∃ cc c, custom_chars = some cc ∧ c ∈ cc ∧ c ∉ string_printable) ∨
      (∃ om c, omitChars = some om ∧ c ∈ om ∧ c ∉ string_printable) ∨
      (∃ ad c, addChars = some ad ∧ c ∈ ad ∧ c ∉ string_printable) ∨
      (∃ b o a, base_charset charsetName caseName custom_chars = Except.ok b ∧
        apply_omit b omitChars = Except.ok o ∧ apply_add o addChars = Except.ok a ∧
        a = [])) :
    ∃ e, build_character_set charsetName caseName omitChars addChars custom_chars =
      Except.error e := by
  have hcheck : (∃ err, custom_charset_check custom_chars = Except.error err) →
      charsetName = "custom" →
      ∃ e, build_character_set charsetName caseName omitChars addChars custom_chars =
        Except.error e := by
    rintro ⟨err, herr⟩ hname
    subst hname
    rcases base_charset_split "custom" caseName custom_chars with ⟨aset, hb⟩ | hb
    · exact ⟨err, build_of_base_error _ _ _ _ _ _
        (by rw [hb, base_charset_core_custom, herr])⟩
    · exact ⟨_, build_of_base_error _ _ _ _ _ _ hb⟩
  rcases h with ⟨hname, hcc⟩ | ⟨hname, cc, hcc, hdup⟩ | ⟨hname, cc, c, hcc, hcm, hcp⟩ |
    ⟨om, c, hom, hcm, hcp⟩ | ⟨ad, c, had, hcm, hcp⟩ | ⟨b, o, a, hb, ho, ha, hanil⟩
  · rcases hcc with h1 | h1 <;> subst h1 <;> exact hcheck ⟨_, rfl⟩ hname
  · refine hcheck ?_ hname
    subst hcc
    have hne : cc ≠ [] := by
      rintro rfl
      exact hdup List.nodup_nil
    have hlen : cc.length ≠ cc.dedup.length := by
      intro hlen
      exact hdup ((dedup_length_eq_iff_nodup cc).mp hlen.symm)
    exact ⟨"Custom character set contains duplicate characters.",
      by simp only [custom_charset_check, if_pos hne, if_pos hlen]⟩
  · refine hcheck ?_ hname
    subst hcc
    have hne : cc ≠ [] := List.ne_nil_of_mem hcm
    have hfil : cc.filter (fun x => decide (x ∉ string_printable)) ≠ [] := by
      apply List.ne_nil_of_mem (a := c)
      rw [List.mem_filter]
      exact ⟨hcm, by simpa using hcp⟩
    simp only [custom_charset_check, if_pos hne]
    split_ifs with h1
    · exact ⟨_, rfl⟩
    · exact ⟨_, rfl⟩
  · subst hom
    cases hb : base_charset charsetName caseName custom_chars with
    | error e => exact ⟨e, build_of_base_error _ _ _ _ _ _ hb⟩
    | ok b =>
      have hfil : om.filter (fun x => decide (x ∉ string_printable)) ≠ [] := by
        apply List.ne_nil_of_mem (a := c)
        rw [List.mem_filter]
        exact ⟨hcm, by simpa using hcp⟩
      have homit : apply_omit b (some om) =
          Except.error "Invalid characters in omit character set." := by
        simp only [apply_omit, if_pos hfil]
      refine ⟨"Invalid characters in omit character set.", ?_⟩
      unfold build_character_set
      simp only [hb, homit]
  · subst had
    cases hb : base_charset charsetName caseName custom_chars with
    | error e => exact ⟨e, build_of_base_error _ _ _ _ _ _ hb⟩
    | ok b =>
      cases ho : apply_omit b omitChars with
      | error e =>
        refine ⟨e, ?_⟩
        unfold build_character_set
        simp only [hb, ho]
      | ok o =>
        have hfil : ad.filter (fun x => decide (x ∉ string_printable)) ≠ [] := by
          apply List.ne_nil_of_mem (a := c)
          rw [List.mem_filter]
          exact ⟨hcm, by simpa using hcp⟩
        have hadd : apply_add o (some ad) =
            Except.error "Invalid characters in add character set." := by
          simp only [apply_add, if_pos hfil]
        refine ⟨"Invalid characters in add character set.", ?_⟩
        unfold build_character_set
        simp only [hb, ho, hadd]
  · subst hanil
    refine ⟨"Used character set is empty.", ?_⟩
    unfold build_character_set
    simp only [hb, ho, ha, if_pos rfl]
    rfl

theorem build_character_set_failure_conditions_witness :
    ∃ e, build_character_set "custom" "upper" none none none = Except.error e :=
  build_character_set_failure_conditions "custom" "upper" none none none
    (Or.inl ⟨rfl, Or.inl rfl⟩)

/-! ## C3 -/

/-- C3: whenever the builder succeeds with omit string `om` and add string `ad` (all
printable), the produced alphabet is exactly the order-preserving filter of the base
charset `b` that removes the characters of `om`, followed by `ad` appended verbatim
(duplicates and all). -/
theorem build_character_set_omit_add (charsetName caseName : String)
    (om ad : List Char) (custom_chars : Option (List Char)) (b a : List Char)
    (homp : ∀ c ∈ om, c ∈ string_printable) (hadp : ∀ c ∈ ad, c ∈ string_printable)
    (hbase : base_charset charsetName caseName custom_chars = Except.ok b)
    (h : build_character_set charsetName caseName (some om) (some ad) custom_chars =
      Except.ok a) :
    a = b.filter (fun c => decide (c ∉ om)) ++ ad := by
  have hof : om.filter (fun x => decide (x ∉ string_printable)) = [] :=
    List.filter_eq_nil_iff.mpr (fun x hx => by simpa using homp x hx)
  have haf : ad.filter (fun x => decide (x ∉ string_printable)) = [] :=
    List.filter_eq_nil_iff.mpr (fun x hx => by simpa using hadp x hx)
  have ho : apply_omit b (some om) = Except.ok (b.filter (fun c => decide (c ∉ om))) := by
    simp only [apply_omit, hof]
    rw [if_neg (by simp)]
  have ha : apply_add (b.filter (fun c => decide (c ∉ om))) (some ad) =
      Except.ok (b.filter (fun c => decide (c ∉ om)) ++ ad) := by
    simp only [apply_add, haf]
    rw [if_neg (by simp)]
  unfold build_character_set at h
  simp only [hbase, ho, ha] at h
  split_ifs at h with h1
  rw [← Except.ok.inj h]

theorem build_character_set_omit_add_witness :
    "123456789AB".data = ("0123456789".data).filter (fun c => decide (c ∉ "0".data)) ++
      "AB".data :=
  build_character_set_omit_add "numeric" "upper" "0".data "AB".data none
    "0123456789".data "123456789AB".data (by decide) (by decide) (by decide) (by decide)

/-! ## C5 -/

/-- C5 is false as stated: `add` characters are appended without deduplication, so the
builder can produce an alphabet with duplicate characters.  With `charset="numeric"` and
`add="0"` the builder succeeds and returns `"01234567890"`, in which `'0'` appears
twice. -/
theorem build_character_set_duplicates_counterexample :
    build_character_set "numeric" "upper" none (some "0".data) none =
      Except.ok ("01234567890".data) ∧ ¬ ("01234567890".data).Nodup := by
  constructor
  · decide
  · decide

lemma custom_charset_check_ok_nodup (cust : Option (List Char)) (b : List Char)
    (h : custom_charset_check cust = Except.ok b) : b.Nodup := by
  cases cust with
  | none => simp [custom_charset_check] at h
  | some cc =>
    simp only [custom_charset_check] at h
    split_ifs at h with hne hdup hinv
    obtain rfl := Except.ok.inj h
    exact (dedup_length_eq_iff_nodup cc).mp (by omega)

lemma base_charset_core_nodup (charsetName : String) (alphaSet : List Char)
    (custom_chars : Option (List Char)) (b : List Char)
    (halpha : alphaSet.Nodup) (hdig : (string_digits ++ alphaSet).Nodup)
    (h : base_charset_core charsetName alphaSet custom_chars = Except.ok b) :
    b.Nodup := by
  unfold base_charset_core at h
  split_ifs at h with h1 h2 h3 h4 h5
  · obtain rfl := Except.ok.inj h
    decide
  · obtain rfl := Except.ok.inj h
    decide
  · obtain rfl := Except.ok.inj h
    exact halpha
  · obtain rfl := Except.ok.inj h
    exact hdig
  · exact custom_charset_check_ok_nodup _ _ h

lemma base_charset_nodup (charsetName caseName : String)
    (custom_chars : Option (List Char)) (b : List Char)
    (h : base_charset charsetName caseName custom_chars = Except.ok b) : b.Nodup := by
  unfold base_charset at h
  split_ifs at h with h1 h2 h3
  · exact base_charset_core_nodup _ _ _ _ (by decide) (by decide) h
  · exact base_charset_core_nodup _ _ _ _ (by decide) (by decide) h
  · exact base_charset_core_nodup _ _ _ _ (by decide) (by decide) h

/-- C5 (amended): every alphabet the builder produces from a run with no add characters
(`add` absent or empty) has no duplicate characters; an add string may introduce
duplicates, as the counterexample shows. -/
theorem build_character_set_nodup_without_add (charsetName caseName : String)
    (omitChars addChars custom_chars : Option (List Char)) (a : List Char)
    (hadd : addChars = none ∨ addChars = some [])
    (h : build_character_set charsetName caseName omitChars addChars custom_chars =
      Except.ok a) :
    a.Nodup := by
  unfold build_character_set at h
  cases hb : base_charset charsetName caseName custom_chars with
  | error e =>
    simp only [hb] at h
    exact absurd h (by simp)
  | ok b =>
    simp only [hb] at h
    have hbnd : b.Nodup := base_charset_nodup _ _ _ _ hb
    cases ho : apply_omit b omitChars with
    | error e =>
      simp only [ho] at h
      exact absurd h (by simp)
    | ok o =>
      simp only [ho] at h
      have hond : o.Nodup := by
        cases omitChars with
        | none =>
          obtain rfl := Except.ok.inj ho
          exact hbnd
        | some om =>
          simp only [apply_omit] at ho
          split_ifs at ho with h1
          obtain rfl := Except.ok.inj ho
          exact hbnd.filter _
      have ha : apply_add o addChars = Except.ok o := by
        rcases hadd with h1 | h1 <;> subst h1
        · rfl
        · simp [apply_add]
      simp only [ha] at h
      split_ifs at h with h1
      obtain rfl := Except.ok.inj h
      exact hond

theorem build_character_set_nodup_without_add_witness :
    ("0123456789".data).Nodup :=
  build_character_set_nodup_without_add "numeric" "upper" none none none
    "0123456789".data (Or.inl rfl) (by decide)

/-! ## C1 -/

lemma sampleCore_length (cs : List Char) (rand : Nat → Nat) (pos L : Nat) :
    (sampleCore cs rand pos L).length = L := by
  simp [sampleCore]

lemma sampleCore_mem (cs : List Char) (rand : Nat → Nat) (pos L : Nat) (hcs : cs ≠ []) :
    ∀ c ∈ sampleCore cs rand pos L, c ∈ cs := by
  intro c hc
  unfold sampleCore at hc
  rcases List.mem_map.mp hc with ⟨k, hk, rfl⟩
  have hlen : 0 < cs.length := List.length_pos.mpr hcs
  have hidx : rand (pos + k) % cs.length < cs.length := Nat.mod_lt _ hlen
  rw [List.getD_eq_getElem cs 'A' hidx]
  exact List.getElem_mem hidx

lemma genLoop_invariant (cs : List Char) (pre suf : Option (List Char))
    (L codes_count : Nat) (rand : Nat → Nat) (hcs : cs ≠ []) :
    ∀ fuel pos (codes : List (List Char)) (gen : Nat) (s : List (List Char)),
      gen ≤ codes_count → codes.length = gen → codes.Nodup →
      (∀ code ∈ codes, ∃ core : List Char,
        code = pre.getD [] ++ core ++ suf.getD [] ∧ core.length = L ∧
        ∀ c ∈ core, c ∈ cs) →
      genLoop cs pre suf L codes_count rand fuel pos codes gen = some s →
      s.length = codes_count ∧ s.Nodup ∧ ∀ code ∈ s, ∃ core : List Char,
        code = pre.getD [] ++ core ++ suf.getD [] ∧ core.length = L ∧
        ∀ c ∈ core, c ∈ cs := by
  intro fuel
  induction fuel with
  | zero =>
    intro pos codes gen s hle hlen hnd hshape hrun
    unfold genLoop at hrun
    split_ifs at hrun with hlt
    obtain rfl := Option.some.inj hrun
    exact ⟨by omega, hnd, hshape⟩
  | succ f ih =>
    intro pos codes gen s hle hlen hnd hshape hrun
    unfold genLoop at hrun
    split_ifs at hrun with hlt hmem
    · exact ih _ _ _ _ hle hlen hnd hshape hrun
    · refine ih (pos + L) _ (gen + 1) s (by omega) (by simp [hlen]) ?_ ?_ hrun
      · exact List.nodup_cons.mpr ⟨hmem, hnd⟩
      · intro code hcode
        rcases List.mem_cons.mp hcode with rfl | hmem2
        · exact ⟨sampleCore cs rand pos L, rfl, sampleCore_length cs rand pos L,
            sampleCore_mem cs rand pos L hcs⟩
        · exact hshape _ hmem2
    · obtain rfl := Option.some.inj hrun
      exact ⟨by omega, hnd, hshape⟩

/-- C1: if generation completes (no capacity error, loop finished within the given fuel)
for an alphabet `cs`, length `L ≥ 1` and `count ≥ 1` with `count ≤ |cs| ^ L`, then it has
produced exactly `count` codes, pairwise distinct, each of the form
`prefix ++ core ++ suffix` with a core of exactly `L` characters all drawn from `cs`. -/
theorem generate_codes_complete_spec (cs : List Char) (pre suf : Option (List Char))
    (codes_count codes_length fuel : Nat) (rand : Nat → Nat) (s : List (List Char))
    (hcs : cs ≠ []) (hL : 1 ≤ codes_length) (hcount : 1 ≤ codes_count)
    (hcap : codes_count ≤ cs.length ^ codes_length)
    (hrun : generate_codes cs pre suf codes_count codes_length rand fuel =
      Except.ok (some s)) :
    s.length = codes_count ∧ s.Nodup ∧ ∀ code ∈ s, ∃ core : List Char,
      code = pre.getD [] ++ core ++ suf.getD [] ∧ core.length = codes_length ∧
      ∀ c ∈ core, c ∈ cs := by
  unfold generate_codes at hrun
  split_ifs at hrun with h
  exact genLoop_invariant cs pre suf codes_length codes_count rand hcs fuel 0 [] 0 s
    (by omega) rfl List.nodup_nil (by intro code hcode; simp at hcode)
    (Except.ok.inj hrun)

theorem generate_codes_complete_spec_witness :
    (["X-b".data, "X-a".data] : List (List Char)).length = 2 ∧
      (["X-b".data, "X-a".data] : List (List Char)).Nodup ∧
      ∀ code ∈ (["X-b".data, "X-a".data] : List (List Char)), ∃ core : List Char,
        code = "X-".data ++ core ++ [] ∧ core.length = 1 ∧ ∀ c ∈ core, c ∈ "ab".data :=
  generate_codes_complete_spec "ab".data (some "X-".data) none 2 1 2 (fun k => k)
    ["X-b".data, "X-a".data] (by decide) (by decide) (by decide) (by decide)
    (by decide)

/-! ## C7 -/

lemma fdiv_neg_one (k : Nat) : Int.fdiv (-1) ((k : Int) + 1) = -1 := by
  show Int.fdiv (Int.negSucc 0) ((k : Int) + 1) = Int.negSucc 0
  have h : ((k : Int) + 1) = Int.ofNat (Nat.succ k) := by
    simp [Int.ofNat_succ]
  rw [h]
  simp [Int.fdiv]

lemma num_files_eq (n m : Nat) (hm : 1 ≤ m) :
    ((((n : Int) - 1).fdiv (m : Int)) + 1).toNat = (n + m - 1) / m := by
  obtain ⟨k, rfl⟩ : ∃ k, m = k + 1 := ⟨m - 1, by omega⟩
  cases n with
  | zero =>
    have h0 : (((0 : Nat) : Int) - 1) = -1 := by norm_num
    rw [h0, show ((k + 1 : Nat) : Int) = ((k : Int) + 1) by push_cast; ring, fdiv_neg_one]
    have : (0 + (k + 1) - 1) / (k + 1) = 0 := Nat.div_eq_of_lt (by omega)
    omega
  | succ n' =>
    have h1 : (((n' + 1 : Nat) : Int) - 1) = ((n' : Nat) : Int) := by push_cast; ring
    rw [h1, ← Int.ofNat_fdiv]
    have h3 : n' + 1 + (k + 1) - 1 = n' + (k + 1) := by omega
    rw [h3, Nat.add_div_right _ (by omega)]
    generalize n' / (k + 1) = q
    omega

lemma chunks_length_sum (m : Nat) (codes : List (List Char)) :
    ∀ k, (((List.range k).map
      (fun i => ((codes.drop (i * m)).take m).length)).sum) = min (k * m) codes.length := by
  intro k
  induction k with
  | zero => simp
  | succ j ihj =>
    rw [List.range_succ, List.map_append, List.sum_append, ihj]
    simp only [List.map_cons, List.map_nil, List.sum_cons, List.sum_nil]
    rw [List.length_take, List.length_drop]
    have hmul : (j + 1) * m = j * m + m := by ring
    rw [hmul]
    generalize j * m = A
    omega

lemma le_ceil_mul (n m : Nat) (hm : 0 < m) : n ≤ ((n + m - 1) / m) * m := by
  rcases Nat.eq_zero_or_pos n with h0 | h1
  · subst h0
    exact Nat.zero_le _
  · have key : (n + m - 1) / m = (n - 1) / m + 1 := by
      rw [show n + m - 1 = (n - 1) + m by omega, Nat.add_div_right _ hm]
    rw [key, Nat.succ_mul]
    have h3 := Nat.div_add_mod (n - 1) m
    have h2 : (n - 1) % m < m := Nat.mod_lt _ hm
    rw [Nat.mul_comm] at h3
    generalize hA : (n - 1) / m * m = A at h3 ⊢
    generalize hB : (n - 1) % m = B at h2 h3
    omega

/-- C7: for any code list of size `n` and `maxlines = m ≥ 1`, the writer's plan has
exactly `⌈n / m⌉ = (n + m - 1) / m` files, no file holds more than `m` codes (rows),
the rows over all files total `n`, a single file is named `<base><ext>`, and multiple
files are named `<base>_<N><ext>` with `N` counting from 1. -/
theorem save_plan_spec (fbase fext : List Char) (m : Nat) (codes : List (List Char))
    (hm : 1 ≤ m) :
    (save_plan fbase fext m codes).length = (codes.length + m - 1) / m ∧
    (∀ f ∈ save_plan fbase fext m codes, f.2.length ≤ m) ∧
    ((save_plan fbase fext m codes).map (fun f => f.2.length)).sum = codes.length ∧
    ((save_plan fbase fext m codes).length = 1 →
      (save_plan fbase fext m codes).map Prod.fst = [fbase ++ fext]) ∧
    (1 < (save_plan fbase fext m codes).length →
      (save_plan fbase fext m codes).map Prod.fst =
        (List.range (save_plan fbase fext m codes).length).map
          (fun i => fbase ++ ('_' :: natStr (i + 1)) ++ fext)) := by
  have hlen : (save_plan fbase fext m codes).length = (codes.length + m - 1) / m := by
    unfold save_plan
    rw [List.length_map, List.length_range]
    exact num_files_eq codes.length m hm
  have hnum : ((((codes.length : Int) - 1).fdiv (m : Int)) + 1).toNat =
      (codes.length + m - 1) / m := num_files_eq codes.length m hm
  refine ⟨hlen, ?_, ?_, ?_, ?_⟩
  · intro f hf
    unfold save_plan at hf
    rcases List.mem_map.mp hf with ⟨i, hi, rfl⟩
    simp only [List.length_take]
    omega
  · unfold save_plan
    rw [List.map_map]
    have := chunks_length_sum m codes ((((codes.length : Int) - 1).fdiv (m : Int)) + 1).toNat
    rw [Function.comp_def]
    rw [this, hnum]
    have hle := le_ceil_mul codes.length m (by omega)
    omega
  · intro h1
    rw [hlen] at h1
    simp only [save_plan]
    rw [hnum, h1]
    simp only [show ¬ (1 < 1) from by omega, if_false]
    rfl
  · intro h1
    rw [hlen] at h1
    rw [hlen]
    simp only [save_plan]
    rw [hnum]
    simp only [if_pos h1, List.map_map]
    rfl

theorem save_plan_spec_witness :
    (save_plan "codes".data ".csv".data 5
        ((List.range 10).map natStr)).length = (((List.range 10).map natStr).length + 5 - 1) / 5 ∧
    (∀ f ∈ save_plan "codes".data ".csv".data 5 ((List.range 10).map natStr),
      f.2.length ≤ 5) ∧
    ((save_plan "codes".data ".csv".data 5 ((List.range 10).map natStr)).map
      (fun f => f.2.length)).sum = ((List.range 10).map natStr).length ∧
    ((save_plan "codes".data ".csv".data 5 ((List.range 10).map natStr)).length = 1 →
      (save_plan "codes".data ".csv".data 5 ((List.range 10).map natStr)).map Prod.fst =
        ["codes".data ++ ".csv".data]) ∧
    (1 < (save_plan "codes".data ".csv".data 5 ((List.range 10).map natStr)).length →
      (save_plan "codes".data ".csv".data 5 ((List.range 10).map natStr)).map Prod.fst =
        (List.range (save_plan "codes".data ".csv".data 5
          ((List.range 10).map natStr)).length).map
            (fun i => "codes".data ++ ('_' :: natStr (i + 1)) ++ ".csv".data)) :=
  save_plan_spec "codes".data ".csv".data 5 ((List.range 10).map natStr) (by decide)

/-! ## C4 -/

/-- C4 exposes a bug: `__save_codes` writes `csv_writer.writerow(code.split())`, so a
code containing whitespace (reachable, e.g. prefix `"X "` or an added `' '` character) is
split into several row fields instead of being written as the single code.  For the code
`"X 0"` the written row is `["X", "0"]`, not the one-field row `["X 0"]`. -/
theorem save_row_splits_whitespace_code :
    rowOfCode ("X 0".data) = ["X".data, "0".data] ∧
      rowOfCode ("X 0".data) ≠ [("X 0".data)] := by
  constructor
  · decide
  · decide

/-! ## C8 -/

/-- C8: a run that fails (configuration error from `__init__`, `build_character_set` or
`build_file`, or the capacity error from `__generate_codes`) performs no filesystem
effects: no output directory is created and no file is written.  All validation sits
before `__save_codes`, the only effectful phase. -/
theorem run_error_no_fs_events (countArg lenArg : PyVal) (charsetName caseName : String)
    (omitChars addChars custom_chars pre suf : Option (List Char))
    (fbase fext : List Char) (maxlines : Option Int)
    (dirExists : Bool) (saveDir : List Char) (rand : Nat → Nat) (fuel : Nat)
    (h : ∃ e, main_run countArg lenArg charsetName caseName omitChars addChars
      custom_chars pre suf fbase fext maxlines dirExists saveDir rand fuel =
        Except.error e) :
    fs_events (main_run countArg lenArg charsetName caseName omitChars addChars
      custom_chars pre suf fbase fext maxlines dirExists saveDir rand fuel) = [] := by
  obtain ⟨e, he⟩ := h
  rw [he]
  rfl

theorem run_error_no_fs_events_witness :
    fs_events (main_run (PyVal.pint 5) (PyVal.pint 4) "numeric" "bad" none none none
      none none "codes".data ".csv".data none false "codes".data (fun _ => 0) 0) = [] :=
  run_error_no_fs_events (PyVal.pint 5) (PyVal.pint 4) "numeric" "bad" none none none
    none none "codes".data ".csv".data none false "codes".data (fun _ => 0) 0
    ⟨"Invalid case: bad.", by rfl⟩
